import Mathlib

/-!
Shallow embedding of the omnivoice provider-fallback core: the `stt` and
`tts` packages (client with registry map, primary name, ordered fallback
list, and the batch/streaming fallback loops), translated from the Go
source. Pure Go functions become Lean functions; the `context.Context`
argument is modelled by a snapshot of its cancellation status; Go's
`error` interface values become package-local error inductives with an
`other` constructor for arbitrary provider-made errors; methods returning
`(T, error)` become `Except`.

Alongside each client operation translated verbatim we define an
instrumented variant (suffix `T`) that additionally returns the names of
the providers actually invoked, in invocation order; agreement lemmas
prove the first component of the instrumented variant equals the verbatim
translation.
-/

set_option autoImplicit false

/-- Cancellation status values of a Go `context.Context`: `context.Canceled`
or `context.DeadlineExceeded`. -/
inductive CtxError where
  | canceled
  | deadlineExceeded
  deriving DecidableEq

/-- Snapshot of a Go `context.Context` as the fallback loops can observe it:
`err = none` models a live context, `err = some e` a cancelled or expired
one. The omnivoice client code only ever passes the context through to
providers; it never reads it. -/
structure Context where
  err : Option CtxError
  deriving DecidableEq

/-- Go `[]byte`, as the list of byte values (each below 256; no arithmetic
is ever performed on them). -/
abbrev Bytes := List Nat

/-- Go `time.Duration` (an `int64` count of nanoseconds; never subject to
overflow-relevant arithmetic in this code). -/
abbrev Duration := Int

/-- Lookup in a Go `map[string]V` modelled as an association list in which
the most recent write is closest to the head. -/
def lookupProv {α : Type} (m : List (String × α)) (k : String) : Option α :=
  (m.find? (fun kv => kv.1 == k)).map (fun kv => kv.2)

/-- Assignment `m[k] = v` on a Go `map[string]V` under the same model: the
new entry is prepended, shadowing any earlier entry with the same key. -/
def mapInsert {α : Type} (m : List (String × α)) (k : String) (v : α) :
    List (String × α) :=
  (k, v) :: m

namespace stt

/-- The error values declared in the stt package's errors file, plus
`other` for any further `error` value a provider implementation may
produce. -/
inductive Err where
  | noAvailableProvider
  | streamingNotSupported
  | invalidAudio
  | invalidConfig
  | audioTooLong
  | audioTooShort
  | rateLimited
  | quotaExceeded
  | unsupportedLanguage
  | unsupportedFormat
  | streamClosed
  | other (msg : String)
  deriving DecidableEq

/-- stt.TranscriptionConfig. -/
structure TranscriptionConfig where
  Language : String
  Model : String
  SampleRate : Int
  Channels : Int
  Encoding : String
  EnablePunctuation : Bool
  EnableWordTimestamps : Bool
  EnableSpeakerDiarization : Bool
  MaxSpeakers : Int
  Keywords : List String
  VocabularyID : String

/-- stt.Word (Confidence is a Go float64, i.e. an IEEE double). -/
structure Word where
  Text : String
  StartTime : Duration
  EndTime : Duration
  Confidence : Float
  Speaker : String

/-- stt.Segment. -/
structure Segment where
  Text : String
  StartTime : Duration
  EndTime : Duration
  Confidence : Float
  Speaker : String
  Words : List Word
  Language : String

/-- stt.TranscriptionResult. -/
structure TranscriptionResult where
  Text : String
  Segments : List Segment
  Language : String
  LanguageConfidence : Float
  Duration : Duration

/-- stt.StreamEventType. -/
inductive StreamEventType where
  | transcript
  | speechStart
  | speechEnd
  | eventError
  deriving DecidableEq

/-- stt.StreamEvent; the Go field `Type` is rendered `EvType` because
`Type` is reserved in Lean, and the `Error error` field becomes an
optional `Err`. -/
structure StreamEvent where
  EvType : StreamEventType
  Transcript : String
  IsFinal : Bool
  Segment : Option Segment
  SpeechStarted : Bool
  SpeechEnded : Bool
  Error : Option Err

/-- Opaque token standing for the `io.WriteCloser` handle a streaming
session returns; the client forwards it verbatim and never inspects it. -/
structure WriteCloser where
  id : Nat
  deriving DecidableEq

/-- An stt.Provider implementation: a record of its methods. The optional
`TranscribeStream` field models the dynamic `StreamingProvider` interface
assertion: it is `some` exactly when the provider's dynamic type also
implements `StreamingProvider`, in which case it holds that method (the
returned event channel is modelled by the list of events it will
deliver). -/
structure Provider where
  Name : String
  Transcribe : Context → Bytes → TranscriptionConfig → Except Err TranscriptionResult
  TranscribeFile : Context → String → TranscriptionConfig → Except Err TranscriptionResult
  TranscribeURL : Context → String → TranscriptionConfig → Except Err TranscriptionResult
  TranscribeStream : Option (Context → TranscriptionConfig → Except Err (WriteCloser × List StreamEvent))

/-- stt.Client. -/
structure Client where
  providers : List (String × Provider)
  primary : String
  fallbacks : List String

/-- The body of stt.NewClient's loop for every index `i > 0`: register the
provider under its self-reported name and append that name to the
fallbacks. -/
def addProviders (c : Client) : List Provider → Client
  | [] => c
  | p :: rest =>
      addProviders
        { c with
          providers := mapInsert c.providers p.Name p
          fallbacks := c.fallbacks ++ [p.Name] }
        rest

/-- stt.NewClient: registers every argument under its `Name()`; the first
argument's name becomes the primary, the remaining names become the
fallbacks in argument order. -/
def NewClient : List Provider → Client
  | [] => { providers := [], primary := "", fallbacks := [] }
  | p :: rest =>
      addProviders
        { providers := mapInsert [] p.Name p, primary := p.Name, fallbacks := [] }
        rest

/-- stt.Client.SetPrimary: overwrites the primary name, with no
validation. -/
def Client.SetPrimary (c : Client) (name : String) : Client :=
  { c with primary := name }

/-- stt.Client.SetFallbacks: overwrites the fallback list, with no
validation. -/
def Client.SetFallbacks (c : Client) (names : List String) : Client :=
  { c with fallbacks := names }

/-- stt.Client.Provider: direct registry lookup (the Go `(Provider, bool)`
pair becomes an `Option`). -/
def Client.Provider (c : Client) (name : String) : Option Provider :=
  lookupProv c.providers name

/-- The fallback loop of stt.Client.Transcribe: try each name in order,
skipping names that do not resolve, returning the first success and
swallowing provider errors; `ErrNoAvailableProvider` on exhaustion. -/
def transcribeFallbacks (c : Client) (ctx : Context) (audio : Bytes)
    (config : TranscriptionConfig) : List String → Except Err TranscriptionResult
  | [] => Except.error Err.noAvailableProvider
  | name :: rest =>
      match lookupProv c.providers name with
      | some p =>
          match p.Transcribe ctx audio config with
          | Except.ok result => Except.ok result
          | Except.error _ => transcribeFallbacks c ctx audio config rest
      | none => transcribeFallbacks c ctx audio config rest

/-- stt.Client.Transcribe: try the primary if it resolves, then the
fallback loop. -/
def Client.Transcribe (c : Client) (ctx : Context) (audio : Bytes)
    (config : TranscriptionConfig) : Except Err TranscriptionResult :=
  match lookupProv c.providers c.primary with
  | some p =>
      match p.Transcribe ctx audio config with
      | Except.ok result => Except.ok result
      | Except.error _ => transcribeFallbacks c ctx audio config c.fallbacks
  | none => transcribeFallbacks c ctx audio config c.fallbacks

/-- Instrumented fallback loop: same control flow as
`transcribeFallbacks`, also returning the names whose provider's
`Transcribe` was actually invoked, in order. -/
def transcribeFallbacksT (c : Client) (ctx : Context) (audio : Bytes)
    (config : TranscriptionConfig) :
    List String → Except Err TranscriptionResult × List String
  | [] => (Except.error Err.noAvailableProvider, [])
  | name :: rest =>
      match lookupProv c.providers name with
      | some p =>
          match p.Transcribe ctx audio config with
          | Except.ok result => (Except.ok result, [name])
          | Except.error _ =>
              let r := transcribeFallbacksT c ctx audio config rest
              (r.1, name :: r.2)
      | none => transcribeFallbacksT c ctx audio config rest

/-- Instrumented stt.Client.Transcribe. -/
def Client.TranscribeT (c : Client) (ctx : Context) (audio : Bytes)
    (config : TranscriptionConfig) : Except Err TranscriptionResult × List String :=
  match lookupProv c.providers c.primary with
  | some p =>
      match p.Transcribe ctx audio config with
      | Except.ok result => (Except.ok result, [c.primary])
      | Except.error _ =>
          let r := transcribeFallbacksT c ctx audio config c.fallbacks
          (r.1, c.primary :: r.2)
  | none => transcribeFallbacksT c ctx audio config c.fallbacks

/-- The fallback loop of stt.Client.TranscribeStream: the first name that
resolves to a provider whose dynamic type implements `StreamingProvider`
has its `TranscribeStream` result returned directly, error or not;
non-streaming and unresolving names are skipped;
`ErrStreamingNotSupported` if none qualifies. -/
def streamFallbacks (c : Client) (ctx : Context) (config : TranscriptionConfig) :
    List String → Except Err (WriteCloser × List StreamEvent)
  | [] => Except.error Err.streamingNotSupported
  | name :: rest =>
      match lookupProv c.providers name with
      | some p =>
          match p.TranscribeStream with
          | some f => f ctx config
          | none => streamFallbacks c ctx config rest
      | none => streamFallbacks c ctx config rest

/-- stt.Client.TranscribeStream. -/
def Client.TranscribeStream (c : Client) (ctx : Context)
    (config : TranscriptionConfig) : Except Err (WriteCloser × List StreamEvent) :=
  match lookupProv c.providers c.primary with
  | some p =>
      match p.TranscribeStream with
      | some f => f ctx config
      | none => streamFallbacks c ctx config c.fallbacks
  | none => streamFallbacks c ctx config c.fallbacks

/-- Instrumented loop of stt.Client.TranscribeStream, also returning the
names on which a `TranscribeStream` session establishment was actually
invoked (the `StreamingProvider` interface assertion itself is not an
invocation). -/
def streamFallbacksT (c : Client) (ctx : Context) (config : TranscriptionConfig) :
    List String → Except Err (WriteCloser × List StreamEvent) × List String
  | [] => (Except.error Err.streamingNotSupported, [])
  | name :: rest =>
      match lookupProv c.providers name with
      | some p =>
          match p.TranscribeStream with
          | some f => (f ctx config, [name])
          | none => streamFallbacksT c ctx config rest
      | none => streamFallbacksT c ctx config rest

/-- Instrumented stt.Client.TranscribeStream. -/
def Client.TranscribeStreamT (c : Client) (ctx : Context)
    (config : TranscriptionConfig) :
    Except Err (WriteCloser × List StreamEvent) × List String :=
  match lookupProv c.providers c.primary with
  | some p =>
      match p.TranscribeStream with
      | some f => (f ctx config, [c.primary])
      | none => streamFallbacksT c ctx config c.fallbacks
  | none => streamFallbacksT c ctx config c.fallbacks

/-- The invariant claimed in the spec's data-model section: a non-empty
primary names a registered provider. -/
def primaryRegistered (c : Client) : Prop :=
  c.primary ≠ "" → (lookupProv c.providers c.primary).isSome = true

end stt

namespace tts

/-- The error values declared in the tts package's errors file, plus
`other` for any further `error` value a provider implementation may
produce. Note the tts package declares no streaming-not-supported
error. -/
inductive Err where
  | noAvailableProvider
  | voiceNotFound
  | invalidConfig
  | rateLimited
  | quotaExceeded
  | streamClosed
  | other (msg : String)
  deriving DecidableEq

/-- tts.Voice; the Go field `Metadata map[string]any` is modelled as a
string-keyed association list of opaque string values (it is never
inspected by the client code). -/
structure Voice where
  ID : String
  Name : String
  Language : String
  Gender : String
  Provider : String
  Metadata : List (String × String)

/-- tts.SynthesisConfig (the four float64 fields are IEEE doubles). -/
structure SynthesisConfig where
  VoiceID : String
  Model : String
  OutputFormat : String
  SampleRate : Int
  Speed : Float
  Pitch : Float
  Stability : Float
  SimilarityBoost : Float

/-- tts.SynthesisResult. -/
structure SynthesisResult where
  Audio : Bytes
  Format : String
  SampleRate : Int
  DurationMs : Int
  CharacterCount : Int

/-- tts.StreamChunk; the `Error error` field becomes an optional `Err`. -/
structure StreamChunk where
  Audio : Bytes
  IsFinal : Bool
  Error : Option Err

/-- A tts.Provider implementation: a record of its methods. Note that
`SynthesizeStream` belongs to the base interface, so every tts provider
has it; the optional `SynthesizeFromReader` field models the dynamic
`StreamingProvider` interface assertion (the reader is modelled by the
text chunks it yields, the output channel by the list of chunks it will
deliver). -/
structure Provider where
  Name : String
  Synthesize : Context → String → SynthesisConfig → Except Err SynthesisResult
  SynthesizeStream : Context → String → SynthesisConfig → Except Err (List StreamChunk)
  ListVoices : Context → Except Err (List Voice)
  GetVoice : Context → String → Except Err Voice
  SynthesizeFromReader : Option (Context → List String → SynthesisConfig → Except Err (List StreamChunk))

/-- tts.Client. -/
structure Client where
  providers : List (String × Provider)
  primary : String
  fallbacks : List String

/-- The body of tts.NewClient's loop for every index `i > 0`. -/
def addProviders (c : Client) : List Provider → Client
  | [] => c
  | p :: rest =>
      addProviders
        { c with
          providers := mapInsert c.providers p.Name p
          fallbacks := c.fallbacks ++ [p.Name] }
        rest

/-- tts.NewClient. -/
def NewClient : List Provider → Client
  | [] => { providers := [], primary := "", fallbacks := [] }
  | p :: rest =>
      addProviders
        { providers := mapInsert [] p.Name p, primary := p.Name, fallbacks := [] }
        rest

/-- tts.Client.SetPrimary: overwrites the primary name, with no
validation. -/
def Client.SetPrimary (c : Client) (name : String) : Client :=
  { c with primary := name }

/-- tts.Client.SetFallbacks. -/
def Client.SetFallbacks (c : Client) (names : List String) : Client :=
  { c with fallbacks := names }

/-- tts.Client.Provider. -/
def Client.Provider (c : Client) (name : String) : Option Provider :=
  lookupProv c.providers name

/-- The fallback loop of tts.Client.Synthesize. -/
def synthesizeFallbacks (c : Client) (ctx : Context) (text : String)
    (config : SynthesisConfig) : List String → Except Err SynthesisResult
  | [] => Except.error Err.noAvailableProvider
  | name :: rest =>
      match lookupProv c.providers name with
      | some p =>
          match p.Synthesize ctx text config with
          | Except.ok result => Except.ok result
          | Except.error _ => synthesizeFallbacks c ctx text config rest
      | none => synthesizeFallbacks c ctx text config rest

/-- tts.Client.Synthesize: try the primary if it resolves, then the
fallback loop. -/
def Client.Synthesize (c : Client) (ctx : Context) (text : String)
    (config : SynthesisConfig) : Except Err SynthesisResult :=
  match lookupProv c.providers c.primary with
  | some p =>
      match p.Synthesize ctx text config with
      | Except.ok result => Except.ok result
      | Except.error _ => synthesizeFallbacks c ctx text config c.fallbacks
  | none => synthesizeFallbacks c ctx text config c.fallbacks

/-- Instrumented fallback loop of tts.Client.Synthesize. -/
def synthesizeFallbacksT (c : Client) (ctx : Context) (text : String)
    (config : SynthesisConfig) :
    List String → Except Err SynthesisResult × List String
  | [] => (Except.error Err.noAvailableProvider, [])
  | name :: rest =>
      match lookupProv c.providers name with
      | some p =>
          match p.Synthesize ctx text config with
          | Except.ok result => (Except.ok result, [name])
          | Except.error _ =>
              let r := synthesizeFallbacksT c ctx text config rest
              (r.1, name :: r.2)
      | none => synthesizeFallbacksT c ctx text config rest

/-- Instrumented tts.Client.Synthesize. -/
def Client.SynthesizeT (c : Client) (ctx : Context) (text : String)
    (config : SynthesisConfig) : Except Err SynthesisResult × List String :=
  match lookupProv c.providers c.primary with
  | some p =>
      match p.Synthesize ctx text config with
      | Except.ok result => (Except.ok result, [c.primary])
      | Except.error _ =>
          let r := synthesizeFallbacksT c ctx text config c.fallbacks
          (r.1, c.primary :: r.2)
  | none => synthesizeFallbacksT c ctx text config c.fallbacks

/-- The fallback loop of tts.Client.SynthesizeStream: `SynthesizeStream`
is called on every resolving candidate (it is a base-interface method, so
there is no capability check), a session-establishment error advances to
the next name, and exhaustion yields `ErrNoAvailableProvider`. -/
def synthStreamFallbacks (c : Client) (ctx : Context) (text : String)
    (config : SynthesisConfig) : List String → Except Err (List StreamChunk)
  | [] => Except.error Err.noAvailableProvider
  | name :: rest =>
      match lookupProv c.providers name with
      | some p =>
          match p.SynthesizeStream ctx text config with
          | Except.ok stream => Except.ok stream
          | Except.error _ => synthStreamFallbacks c ctx text config rest
      | none => synthStreamFallbacks c ctx text config rest

/-- tts.Client.SynthesizeStream. -/
def Client.SynthesizeStream (c : Client) (ctx : Context) (text : String)
    (config : SynthesisConfig) : Except Err (List StreamChunk) :=
  match lookupProv c.providers c.primary with
  | some p =>
      match p.SynthesizeStream ctx text config with
      | Except.ok stream => Except.ok stream
      | Except.error _ => synthStreamFallbacks c ctx text config c.fallbacks
  | none => synthStreamFallbacks c ctx text config c.fallbacks

/-- Instrumented fallback loop of tts.Client.SynthesizeStream. -/
def synthStreamFallbacksT (c : Client) (ctx : Context) (text : String)
    (config : SynthesisConfig) :
    List String → Except Err (List StreamChunk) × List String
  | [] => (Except.error Err.noAvailableProvider, [])
  | name :: rest =>
      match lookupProv c.providers name with
      | some p =>
          match p.SynthesizeStream ctx text config with
          | Except.ok stream => (Except.ok stream, [name])
          | Except.error _ =>
              let r := synthStreamFallbacksT c ctx text config rest
              (r.1, name :: r.2)
      | none => synthStreamFallbacksT c ctx text config rest

/-- Instrumented tts.Client.SynthesizeStream. -/
def Client.SynthesizeStreamT (c : Client) (ctx : Context) (text : String)
    (config : SynthesisConfig) : Except Err (List StreamChunk) × List String :=
  match lookupProv c.providers c.primary with
  | some p =>
      match p.SynthesizeStream ctx text config with
      | Except.ok stream => (Except.ok stream, [c.primary])
      | Except.error _ =>
          let r := synthStreamFallbacksT c ctx text config c.fallbacks
          (r.1, c.primary :: r.2)
  | none => synthStreamFallbacksT c ctx text config c.fallbacks

/-- The spec's data-model invariant for the tts client: a non-empty
primary names a registered provider. -/
def primaryRegistered (c : Client) : Prop :=
  c.primary ≠ "" → (lookupProv c.providers c.primary).isSome = true

end tts

/-- `true` exactly on `Except.error`. -/
def isErr {ε α : Type} : Except ε α → Bool
  | Except.error _ => true
  | Except.ok _ => false

namespace stt

/-- A candidate name resolves in the client's registry. -/
def Client.resolves (c : Client) (nm : String) : Bool :=
  (lookupProv c.providers nm).isSome

/-- Every name in `l` that resolves in `c`'s registry has a provider whose
`Transcribe` fails on this request. -/
def failsOn (c : Client) (ctx : Context) (audio : Bytes)
    (config : TranscriptionConfig) (l : List String) : Bool :=
  l.all (fun nm =>
    match lookupProv c.providers nm with
    | some p => isErr (p.Transcribe ctx audio config)
    | none => true)

/-- No name in `l` resolves to a provider whose dynamic type implements
the `StreamingProvider` capability. -/
def noStreamCapOn (c : Client) (l : List String) : Bool :=
  l.all (fun nm =>
    match lookupProv c.providers nm with
    | some p => p.TranscribeStream.isNone
    | none => true)

end stt

namespace tts

/-- A candidate name resolves in the client's registry. -/
def Client.resolves (c : Client) (nm : String) : Bool :=
  (lookupProv c.providers nm).isSome

/-- Every name in `l` that resolves in `c`'s registry has a provider whose
`Synthesize` fails on this request. -/
def failsOn (c : Client) (ctx : Context) (text : String)
    (config : SynthesisConfig) (l : List String) : Bool :=
  l.all (fun nm =>
    match lookupProv c.providers nm with
    | some p => isErr (p.Synthesize ctx text config)
    | none => true)

/-- Every name in `l` that resolves in `c`'s registry has a provider whose
`SynthesizeStream` establishment fails on this request. -/
def streamFailsOn (c : Client) (ctx : Context) (text : String)
    (config : SynthesisConfig) (l : List String) : Bool :=
  l.all (fun nm =>
    match lookupProv c.providers nm with
    | some p => isErr (p.SynthesizeStream ctx text config)
    | none => true)

end tts

/-! Concrete fixtures used by witnesses and counterexamples. -/

/-- A live context. -/
def ctx0 : Context := { err := none }

/-- A context whose cancellation status reports `context.Canceled`. -/
def ctxCancelled : Context := { err := some CtxError.canceled }

/-- A sample audio payload. -/
def audio0 : Bytes := [0, 1, 2, 3]

/-- A sample transcription configuration. -/
def sttCfg0 : stt.TranscriptionConfig :=
  { Language := "en-US", Model := "", SampleRate := 16000, Channels := 1,
    Encoding := "pcm", EnablePunctuation := false, EnableWordTimestamps := false,
    EnableSpeakerDiarization := false, MaxSpeakers := 0, Keywords := [],
    VocabularyID := "" }

/-- A sample transcription result. -/
def sttRes0 : stt.TranscriptionResult :=
  { Text := "hello", Segments := [], Language := "en-US",
    LanguageConfidence := 1.0, Duration := 1000 }

/-- A sample synthesis configuration. -/
def ttsCfg0 : tts.SynthesisConfig :=
  { VoiceID := "v", Model := "", OutputFormat := "pcm", SampleRate := 22050,
    Speed := 1.0, Pitch := 0.0, Stability := 0.5, SimilarityBoost := 0.5 }

/-- A sample synthesis result. -/
def ttsRes0 : tts.SynthesisResult :=
  { Audio := [9, 9], Format := "pcm", SampleRate := 22050, DurationMs := 10,
    CharacterCount := 5 }

/-- A batch-only stt provider stub with the given name and fixed
`Transcribe` outcome. -/
def mkSttProvider (nm : String) (res : Except stt.Err stt.TranscriptionResult) :
    stt.Provider :=
  { Name := nm, Transcribe := fun _ _ _ => res, TranscribeFile := fun _ _ _ => res,
    TranscribeURL := fun _ _ _ => res, TranscribeStream := none }

/-- A streaming-capable stt provider stub with the given fixed session
establishment outcome. -/
def mkSttStreamProvider (nm : String)
    (sres : Except stt.Err (stt.WriteCloser × List stt.StreamEvent)) : stt.Provider :=
  { Name := nm, Transcribe := fun _ _ _ => Except.ok sttRes0,
    TranscribeFile := fun _ _ _ => Except.ok sttRes0,
    TranscribeURL := fun _ _ _ => Except.ok sttRes0,
    TranscribeStream := some (fun _ _ => sres) }

/-- A tts provider stub (not `StreamingProvider`-capable) with fixed
`Synthesize` and `SynthesizeStream` outcomes. -/
def mkTtsProvider (nm : String) (res : Except tts.Err tts.SynthesisResult)
    (sres : Except tts.Err (List tts.StreamChunk)) : tts.Provider :=
  { Name := nm, Synthesize := fun _ _ _ => res,
    SynthesizeStream := fun _ _ _ => sres,
    ListVoices := fun _ => Except.ok [],
    GetVoice := fun _ _ => Except.error tts.Err.voiceNotFound,
    SynthesizeFromReader := none }

/-- C1 fixture: stt primary that succeeds. -/
def c1p : stt.Provider := mkSttProvider "P" (Except.ok sttRes0)

/-- C1 fixture: stt fallback that would fail if ever invoked. -/
def c1fb : stt.Provider := mkSttProvider "Q" (Except.error stt.Err.rateLimited)

/-- C1 fixture: stt client with succeeding primary and one fallback. -/
def c1c : stt.Client :=
  { providers := [("P", c1p), ("Q", c1fb)], primary := "P", fallbacks := ["Q"] }

/-- C1 fixture: tts primary that succeeds. -/
def c1tp : tts.Provider := mkTtsProvider "P" (Except.ok ttsRes0) (Except.ok [])

/-- C1 fixture: tts client with succeeding primary. -/
def c1tc : tts.Client :=
  { providers := [("P", c1tp)], primary := "P", fallbacks := [] }

/-- C2 fixture: failing stt provider A. -/
def c2a : stt.Provider := mkSttProvider "A" (Except.error stt.Err.rateLimited)

/-- C2 fixture: failing stt provider B. -/
def c2b : stt.Provider := mkSttProvider "B" (Except.error stt.Err.quotaExceeded)

/-- C2 fixture: stt client whose every candidate fails. -/
def c2c : stt.Client :=
  { providers := [("A", c2a), ("B", c2b)], primary := "A", fallbacks := ["B"] }

/-- C2 fixture: failing tts provider A. -/
def c2ta : tts.Provider :=
  mkTtsProvider "A" (Except.error tts.Err.rateLimited) (Except.ok [])

/-- C2 fixture: failing tts provider B. -/
def c2tb : tts.Provider :=
  mkTtsProvider "B" (Except.error tts.Err.quotaExceeded) (Except.ok [])

/-- C2 fixture: tts client whose every candidate fails. -/
def c2tc : tts.Client :=
  { providers := [("A", c2ta), ("B", c2tb)], primary := "A", fallbacks := ["B"] }

/-- C3 fixture: tts provider lacking the `StreamingProvider` capability
whose `SynthesizeStream` establishment fails. -/
def c3q : tts.Provider :=
  mkTtsProvider "q" (Except.ok ttsRes0) (Except.error (tts.Err.other "no stream"))

/-- C3 fixture: tts client whose only candidate is `c3q`. -/
def c3c : tts.Client :=
  { providers := [("q", c3q)], primary := "q", fallbacks := [] }

/-- C3 fixture: batch-only stt provider. -/
def c3s : stt.Provider := mkSttProvider "s" (Except.ok sttRes0)

/-- C3 fixture: stt client with no streaming-capable candidate. -/
def c3sc : stt.Client :=
  { providers := [("s", c3s)], primary := "s", fallbacks := [] }

/-- C4 fixture: streaming-capable stt provider whose establishment
fails. -/
def c4a : stt.Provider :=
  mkSttStreamProvider "A" (Except.error (stt.Err.other "estab failed"))

/-- C4 fixture: streaming-capable stt provider whose establishment
succeeds. -/
def c4b : stt.Provider :=
  mkSttStreamProvider "B" (Except.ok ({ id := 7 }, []))

/-- C4 fixture: stt client with failing-then-succeeding streaming
candidates. -/
def c4c : stt.Client :=
  { providers := [("A", c4a), ("B", c4b)], primary := "A", fallbacks := ["B"] }

/-- C4 fixture: tts provider whose stream establishment fails. -/
def c4tp : tts.Provider :=
  mkTtsProvider "A" (Except.ok ttsRes0) (Except.error tts.Err.rateLimited)

/-- C4 fixture: tts provider whose stream establishment succeeds. -/
def c4tq : tts.Provider :=
  mkTtsProvider "B" (Except.ok ttsRes0)
    (Except.ok [{ Audio := [5], IsFinal := true, Error := none }])

/-- C4 fixture: tts client with failing-then-succeeding streaming
candidates. -/
def c4tc : tts.Client :=
  { providers := [("A", c4tp), ("B", c4tq)], primary := "A", fallbacks := ["B"] }

/-- C5 fixture: failing stt provider A. -/
def c5a : stt.Provider := mkSttProvider "A" (Except.error stt.Err.rateLimited)

/-- C5 fixture: succeeding stt provider B. -/
def c5b : stt.Provider := mkSttProvider "B" (Except.ok sttRes0)

/-- C5 fixture: stt client whose primary fails and whose fallback
succeeds. -/
def c5c : stt.Client :=
  { providers := [("A", c5a), ("B", c5b)], primary := "A", fallbacks := ["B"] }

/-- C5 fixture: tts provider ignoring its context. -/
def c5t : tts.Provider := mkTtsProvider "T" (Except.ok ttsRes0) (Except.ok [])

/-- C5 fixture: tts client with a single candidate. -/
def c5tc : tts.Client :=
  { providers := [("T", c5t)], primary := "T", fallbacks := [] }

/-- C6 fixture: failing stt primary. -/
def c6prim : stt.Provider := mkSttProvider "prim" (Except.error stt.Err.invalidAudio)

/-- C6 fixture: succeeding stt provider registered as "real". -/
def c6real : stt.Provider := mkSttProvider "real" (Except.ok sttRes0)

/-- C6 fixture: stt client with an unregistered "ghost" fallback ahead of
"real". -/
def c6c : stt.Client :=
  { providers := [("prim", c6prim), ("real", c6real)], primary := "prim",
    fallbacks := ["ghost", "real"] }

/-- C6 fixture: failing tts primary. -/
def c6tprim : tts.Provider :=
  mkTtsProvider "prim" (Except.error tts.Err.invalidConfig) (Except.ok [])

/-- C6 fixture: succeeding tts provider registered as "real". -/
def c6treal : tts.Provider := mkTtsProvider "real" (Except.ok ttsRes0) (Except.ok [])

/-- C6 fixture: tts client with an unregistered "ghost" fallback ahead of
"real". -/
def c6tc : tts.Client :=
  { providers := [("prim", c6tprim), ("real", c6treal)], primary := "prim",
    fallbacks := ["ghost", "real"] }

/-- C8 fixture: a registered stt provider. -/
def c8p : stt.Provider := mkSttProvider "p" (Except.ok sttRes0)

/-- C8 fixture: a registered tts provider. -/
def c8tp : tts.Provider := mkTtsProvider "p" (Except.ok ttsRes0) (Except.ok [])

/-- C9 fixture: first stt provider named "dup". -/
def c9d1 : stt.Provider := mkSttProvider "dup" (Except.error stt.Err.rateLimited)

/-- C9 fixture: second stt provider named "dup"; its registration must
win. -/
def c9d2 : stt.Provider := mkSttProvider "dup" (Except.ok sttRes0)

/-- C9 fixture: first tts provider named "dup". -/
def c9e1 : tts.Provider :=
  mkTtsProvider "dup" (Except.error tts.Err.rateLimited) (Except.ok [])

/-- C9 fixture: second tts provider named "dup". -/
def c9e2 : tts.Provider := mkTtsProvider "dup" (Except.ok ttsRes0) (Except.ok [])

/-- C10 fixture: failing stt provider A. -/
def c10a : stt.Provider := mkSttProvider "A" (Except.error stt.Err.rateLimited)

/-- C10 fixture: succeeding stt provider B. -/
def c10b : stt.Provider := mkSttProvider "B" (Except.ok sttRes0)

/-- C10 fixture: failing stt provider B. -/
def c10bf : stt.Provider := mkSttProvider "B" (Except.error stt.Err.quotaExceeded)

/-- C10 counterexample fixture: primary "A" also listed as a fallback, but
the intervening fallback "B" succeeds. -/
def c10c : stt.Client :=
  { providers := [("A", c10a), ("B", c10b)], primary := "A", fallbacks := ["B", "A"] }

/-- C10 witness fixture: primary "A" also listed as a fallback, every
candidate fails. -/
def c10w : stt.Client :=
  { providers := [("A", c10a), ("B", c10bf)], primary := "A", fallbacks := ["B", "A"] }

/-- C10 fixture: failing tts provider A. -/
def c10ta : tts.Provider :=
  mkTtsProvider "A" (Except.error tts.Err.rateLimited) (Except.ok [])

/-- C10 fixture: failing tts provider B. -/
def c10tb : tts.Provider :=
  mkTtsProvider "B" (Except.error tts.Err.quotaExceeded) (Except.ok [])

/-- C10 witness fixture: tts client whose primary "A" also appears as a
fallback, every candidate failing. -/
def c10tw : tts.Client :=
  { providers := [("A", c10ta), ("B", c10tb)], primary := "A", fallbacks := ["B", "A"] }


/-! Helper lemmas about the registry-map model. -/

/-- A successful lookup returns the second component of some entry of the
list. -/
theorem lookupProv_mem {α : Type} {m : List (String × α)} {k : String} {v : α}
    (h : lookupProv m k = some v) : ∃ kv ∈ m, kv.2 = v := by
  unfold lookupProv at h
  cases hf : m.find? (fun kv => kv.1 == k) with
  | none => rw [hf] at h; simp at h
  | some kv =>
      rw [hf] at h
      simp only [Option.map_some'] at h
      exact ⟨kv, List.mem_of_find?_eq_some hf, Option.some.inj h⟩

/-- Lookup in a registry built by tagging each element with a key equals a
plain search over the elements. -/
theorem lookupProv_map_key {α : Type} (f : α → String) (L : List α) (nm : String) :
    lookupProv (L.map (fun a => (f a, a))) nm = L.find? (fun a => f a == nm) := by
  unfold lookupProv
  rw [List.find?_map]
  have hc : ((fun kv : String × α => kv.1 == nm) ∘ fun a => (f a, a))
      = fun a => f a == nm := rfl
  rw [hc]
  cases L.find? (fun a => f a == nm) with
  | none => rfl
  | some a => rfl

namespace stt

/-- The instrumented transcribe loop computes the same result as the
verbatim translation. -/
theorem transcribeFallbacksT_fst (c : Client) (ctx : Context) (audio : Bytes)
    (config : TranscriptionConfig) (l : List String) :
    (transcribeFallbacksT c ctx audio config l).1
      = transcribeFallbacks c ctx audio config l := by
  induction l with
  | nil => rfl
  | cons name rest ih =>
      cases hl : lookupProv c.providers name with
      | none => simp only [transcribeFallbacksT, transcribeFallbacks, hl]; exact ih
      | some p =>
          cases he : p.Transcribe ctx audio config with
          | ok r => simp [transcribeFallbacksT, transcribeFallbacks, hl, he]
          | error e =>
              simp only [transcribeFallbacksT, transcribeFallbacks, hl, he]
              exact ih

/-- The instrumented stt.Client.Transcribe computes the same result as the
verbatim translation. -/
theorem TranscribeT_fst (c : Client) (ctx : Context) (audio : Bytes)
    (config : TranscriptionConfig) :
    (c.TranscribeT ctx audio config).1 = c.Transcribe ctx audio config := by
  cases hl : lookupProv c.providers c.primary with
  | none =>
      simp only [Client.TranscribeT, Client.Transcribe, hl]
      exact transcribeFallbacksT_fst c ctx audio config c.fallbacks
  | some p =>
      cases he : p.Transcribe ctx audio config with
      | ok r => simp [Client.TranscribeT, Client.Transcribe, hl, he]
      | error e =>
          simp only [Client.TranscribeT, Client.Transcribe, hl, he]
          exact transcribeFallbacksT_fst c ctx audio config c.fallbacks

/-- When every resolving name in `l` fails, the transcribe loop exhausts
`l`, attempting exactly the resolving names in order. -/
theorem transcribeFallbacksT_allFail (c : Client) (ctx : Context) (audio : Bytes)
    (config : TranscriptionConfig) (l : List String)
    (h : failsOn c ctx audio config l = true) :
    transcribeFallbacksT c ctx audio config l =
      (Except.error Err.noAvailableProvider, l.filter c.resolves) := by
  induction l with
  | nil => rfl
  | cons name rest ih =>
      simp only [failsOn, List.all_cons, Bool.and_eq_true] at h
      obtain ⟨h1, h2⟩ := h
      have hrest := ih h2
      cases hl : lookupProv c.providers name with
      | none =>
          simp only [transcribeFallbacksT, List.filter_cons, Client.resolves, hl,
            Option.isSome_none, Bool.false_eq_true, if_false]
          exact hrest
      | some p =>
          simp only [hl] at h1
          cases he : p.Transcribe ctx audio config with
          | ok r => rw [he] at h1; simp [isErr] at h1
          | error e =>
              simp only [transcribeFallbacksT, List.filter_cons, Client.resolves,
                hl, he, Option.isSome_some, if_true, hrest]

/-- Splitting lemma: a failing prefix of the candidate list contributes
its resolving names to the attempt trace and then the loop continues. -/
theorem transcribeFallbacksT_append (c : Client) (ctx : Context) (audio : Bytes)
    (config : TranscriptionConfig) (l₁ l₂ : List String)
    (h : failsOn c ctx audio config l₁ = true) :
    transcribeFallbacksT c ctx audio config (l₁ ++ l₂) =
      ((transcribeFallbacksT c ctx audio config l₂).1,
        l₁.filter c.resolves ++ (transcribeFallbacksT c ctx audio config l₂).2) := by
  induction l₁ with
  | nil => simp
  | cons name rest ih =>
      simp only [failsOn, List.all_cons, Bool.and_eq_true] at h
      obtain ⟨h1, h2⟩ := h
      have hrest := ih h2
      cases hl : lookupProv c.providers name with
      | none =>
          simp only [List.cons_append, transcribeFallbacksT, List.filter_cons,
            Client.resolves, hl, Option.isSome_none, Bool.false_eq_true, if_false]
          exact hrest
      | some p =>
          simp only [hl] at h1
          cases he : p.Transcribe ctx audio config with
          | ok r => rw [he] at h1; simp [isErr] at h1
          | error e =>
              simp only [List.cons_append, transcribeFallbacksT, List.filter_cons,
                Client.resolves, hl, he, Option.isSome_some, if_true,
                List.append_eq, hrest]

/-- The transcribe loop never reads the context itself: if all registered
providers behave alike on two contexts, the loop does too. -/
theorem transcribeFallbacksT_ctx (c : Client) (ctx ctx' : Context) (audio : Bytes)
    (config : TranscriptionConfig)
    (h : ∀ kv ∈ c.providers,
      kv.2.Transcribe ctx audio config = kv.2.Transcribe ctx' audio config)
    (l : List String) :
    transcribeFallbacksT c ctx audio config l
      = transcribeFallbacksT c ctx' audio config l := by
  induction l with
  | nil => rfl
  | cons name rest ih =>
      cases hl : lookupProv c.providers name with
      | none => simp only [transcribeFallbacksT, hl]; exact ih
      | some p =>
          obtain ⟨kv, hmem, hsnd⟩ := lookupProv_mem hl
          have hp : p.Transcribe ctx audio config = p.Transcribe ctx' audio config := by
            rw [← hsnd]; exact h kv hmem
          cases he : p.Transcribe ctx' audio config with
          | ok r => simp only [transcribeFallbacksT, hl, hp, he]
          | error e => simp only [transcribeFallbacksT, hl, hp, he, ih]

/-- stt.Client.Transcribe never reads the context itself. -/
theorem TranscribeT_ctx (c : Client) (ctx ctx' : Context) (audio : Bytes)
    (config : TranscriptionConfig)
    (h : ∀ kv ∈ c.providers,
      kv.2.Transcribe ctx audio config = kv.2.Transcribe ctx' audio config) :
    c.TranscribeT ctx audio config = c.TranscribeT ctx' audio config := by
  cases hl : lookupProv c.providers c.primary with
  | none =>
      simp only [Client.TranscribeT, hl]
      exact transcribeFallbacksT_ctx c ctx ctx' audio config h c.fallbacks
  | some p =>
      obtain ⟨kv, hmem, hsnd⟩ := lookupProv_mem hl
      have hp : p.Transcribe ctx audio config = p.Transcribe ctx' audio config := by
        rw [← hsnd]; exact h kv hmem
      cases he : p.Transcribe ctx' audio config with
      | ok r => simp only [Client.TranscribeT, hl, hp, he]
      | error e =>
          simp only [Client.TranscribeT, hl, hp, he,
            transcribeFallbacksT_ctx c ctx ctx' audio config h c.fallbacks]

/-- The transcribe loop returns either some success or exactly
`ErrNoAvailableProvider`. -/
theorem transcribeFallbacks_okOrNoAvail (c : Client) (ctx : Context) (audio : Bytes)
    (config : TranscriptionConfig) (l : List String) :
    (∃ r, transcribeFallbacks c ctx audio config l = Except.ok r) ∨
      transcribeFallbacks c ctx audio config l
        = Except.error Err.noAvailableProvider := by
  induction l with
  | nil => exact Or.inr rfl
  | cons name rest ih =>
      cases hl : lookupProv c.providers name with
      | none => simp only [transcribeFallbacks, hl]; exact ih
      | some p =>
          cases he : p.Transcribe ctx audio config with
          | ok r => exact Or.inl ⟨r, by simp [transcribeFallbacks, hl, he]⟩
          | error e => simp only [transcribeFallbacks, hl, he]; exact ih

/-- No streaming-capable resolving candidate in `l` means the streaming
loop invokes nobody and exhausts into `ErrStreamingNotSupported`. -/
theorem streamFallbacksT_noCap (c : Client) (ctx : Context)
    (config : TranscriptionConfig) (l : List String)
    (h : noStreamCapOn c l = true) :
    streamFallbacksT c ctx config l
      = (Except.error Err.streamingNotSupported, []) := by
  induction l with
  | nil => rfl
  | cons name rest ih =>
      simp only [noStreamCapOn, List.all_cons, Bool.and_eq_true] at h
      obtain ⟨h1, h2⟩ := h
      cases hl : lookupProv c.providers name with
      | none => simp only [streamFallbacksT, hl]; exact ih h2
      | some p =>
          simp only [hl] at h1
          cases hts : p.TranscribeStream with
          | none => simp only [streamFallbacksT, hl, hts]; exact ih h2
          | some f => rw [hts] at h1; simp at h1

/-- The streaming loop performs at most one establishment attempt. -/
theorem streamFallbacksT_len (c : Client) (ctx : Context)
    (config : TranscriptionConfig) (l : List String) :
    (streamFallbacksT c ctx config l).2.length ≤ 1 := by
  induction l with
  | nil => simp [streamFallbacksT]
  | cons name rest ih =>
      cases hl : lookupProv c.providers name with
      | none => simp only [streamFallbacksT, hl]; exact ih
      | some p =>
          cases hts : p.TranscribeStream with
          | none => simp only [streamFallbacksT, hl, hts]; exact ih
          | some f => simp [streamFallbacksT, hl, hts]

/-- The instrumented streaming loop computes the same result as the
verbatim translation. -/
theorem streamFallbacksT_fst (c : Client) (ctx : Context)
    (config : TranscriptionConfig) (l : List String) :
    (streamFallbacksT c ctx config l).1 = streamFallbacks c ctx config l := by
  induction l with
  | nil => rfl
  | cons name rest ih =>
      cases hl : lookupProv c.providers name with
      | none => simp only [streamFallbacksT, streamFallbacks, hl]; exact ih
      | some p =>
          cases hts : p.TranscribeStream with
          | none => simp only [streamFallbacksT, streamFallbacks, hl, hts]; exact ih
          | some f => simp [streamFallbacksT, streamFallbacks, hl, hts]

/-- The instrumented stt.Client.TranscribeStream computes the same result
as the verbatim translation. -/
theorem TranscribeStreamT_fst (c : Client) (ctx : Context)
    (config : TranscriptionConfig) :
    (c.TranscribeStreamT ctx config).1 = c.TranscribeStream ctx config := by
  cases hl : lookupProv c.providers c.primary with
  | none =>
      simp only [Client.TranscribeStreamT, Client.TranscribeStream, hl]
      exact streamFallbacksT_fst c ctx config c.fallbacks
  | some p =>
      cases hts : p.TranscribeStream with
      | none =>
          simp only [Client.TranscribeStreamT, Client.TranscribeStream, hl, hts]
          exact streamFallbacksT_fst c ctx config c.fallbacks
      | some f => simp [Client.TranscribeStreamT, Client.TranscribeStream, hl, hts]

end stt

namespace tts

/-- The instrumented synthesize loop computes the same result as the
verbatim translation. -/
theorem synthesizeFallbacksT_fst (c : Client) (ctx : Context) (text : String)
    (config : SynthesisConfig) (l : List String) :
    (synthesizeFallbacksT c ctx text config l).1
      = synthesizeFallbacks c ctx text config l := by
  induction l with
  | nil => rfl
  | cons name rest ih =>
      cases hl : lookupProv c.providers name with
      | none => simp only [synthesizeFallbacksT, synthesizeFallbacks, hl]; exact ih
      | some p =>
          cases he : p.Synthesize ctx text config with
          | ok r => simp [synthesizeFallbacksT, synthesizeFallbacks, hl, he]
          | error e =>
              simp only [synthesizeFallbacksT, synthesizeFallbacks, hl, he]
              exact ih

/-- The instrumented tts.Client.Synthesize computes the same result as the
verbatim translation. -/
theorem SynthesizeT_fst (c : Client) (ctx : Context) (text : String)
    (config : SynthesisConfig) :
    (c.SynthesizeT ctx text config).1 = c.Synthesize ctx text config := by
  cases hl : lookupProv c.providers c.primary with
  | none =>
      simp only [Client.SynthesizeT, Client.Synthesize, hl]
      exact synthesizeFallbacksT_fst c ctx text config c.fallbacks
  | some p =>
      cases he : p.Synthesize ctx text config with
      | ok r => simp [Client.SynthesizeT, Client.Synthesize, hl, he]
      | error e =>
          simp only [Client.SynthesizeT, Client.Synthesize, hl, he]
          exact synthesizeFallbacksT_fst c ctx text config c.fallbacks

/-- When every resolving name in `l` fails, the synthesize loop exhausts
`l`, attempting exactly the resolving names in order. -/
theorem synthesizeFallbacksT_allFail (c : Client) (ctx : Context) (text : String)
    (config : SynthesisConfig) (l : List String)
    (h : failsOn c ctx text config l = true) :
    synthesizeFallbacksT c ctx text config l =
      (Except.error Err.noAvailableProvider, l.filter c.resolves) := by
  induction l with
  | nil => rfl
  | cons name rest ih =>
      simp only [failsOn, List.all_cons, Bool.and_eq_true] at h
      obtain ⟨h1, h2⟩ := h
      have hrest := ih h2
      cases hl : lookupProv c.providers name with
      | none =>
          simp only [synthesizeFallbacksT, List.filter_cons, Client.resolves, hl,
            Option.isSome_none, Bool.false_eq_true, if_false]
          exact hrest
      | some p =>
          simp only [hl] at h1
          cases he : p.Synthesize ctx text config with
          | ok r => rw [he] at h1; simp [isErr] at h1
          | error e =>
              simp only [synthesizeFallbacksT, List.filter_cons, Client.resolves,
                hl, he, Option.isSome_some, if_true, hrest]

/-- Splitting lemma for the synthesize loop over a failing prefix. -/
theorem synthesizeFallbacksT_append (c : Client) (ctx : Context) (text : String)
    (config : SynthesisConfig) (l₁ l₂ : List String)
    (h : failsOn c ctx text config l₁ = true) :
    synthesizeFallbacksT c ctx text config (l₁ ++ l₂) =
      ((synthesizeFallbacksT c ctx text config l₂).1,
        l₁.filter c.resolves ++ (synthesizeFallbacksT c ctx text config l₂).2) := by
  induction l₁ with
  | nil => simp
  | cons name rest ih =>
      simp only [failsOn, List.all_cons, Bool.and_eq_true] at h
      obtain ⟨h1, h2⟩ := h
      have hrest := ih h2
      cases hl : lookupProv c.providers name with
      | none =>
          simp only [List.cons_append, synthesizeFallbacksT, List.filter_cons,
            Client.resolves, hl, Option.isSome_none, Bool.false_eq_true, if_false]
          exact hrest
      | some p =>
          simp only [hl] at h1
          cases he : p.Synthesize ctx text config with
          | ok r => rw [he] at h1; simp [isErr] at h1
          | error e =>
              simp only [List.cons_append, synthesizeFallbacksT, List.filter_cons,
                Client.resolves, hl, he, Option.isSome_some, if_true,
                List.append_eq, hrest]

/-- The synthesize loop never reads the context itself. -/
theorem synthesizeFallbacksT_ctx (c : Client) (ctx ctx' : Context) (text : String)
    (config : SynthesisConfig)
    (h : ∀ kv ∈ c.providers,
      kv.2.Synthesize ctx text config = kv.2.Synthesize ctx' text config)
    (l : List String) :
    synthesizeFallbacksT c ctx text config l
      = synthesizeFallbacksT c ctx' text config l := by
  induction l with
  | nil => rfl
  | cons name rest ih =>
      cases hl : lookupProv c.providers name with
      | none => simp only [synthesizeFallbacksT, hl]; exact ih
      | some p =>
          obtain ⟨kv, hmem, hsnd⟩ := lookupProv_mem hl
          have hp : p.Synthesize ctx text config = p.Synthesize ctx' text config := by
            rw [← hsnd]; exact h kv hmem
          cases he : p.Synthesize ctx' text config with
          | ok r => simp only [synthesizeFallbacksT, hl, hp, he]
          | error e => simp only [synthesizeFallbacksT, hl, hp, he, ih]

/-- tts.Client.Synthesize never reads the context itself. -/
theorem SynthesizeT_ctx (c : Client) (ctx ctx' : Context) (text : String)
    (config : SynthesisConfig)
    (h : ∀ kv ∈ c.providers,
      kv.2.Synthesize ctx text config = kv.2.Synthesize ctx' text config) :
    c.SynthesizeT ctx text config = c.SynthesizeT ctx' text config := by
  cases hl : lookupProv c.providers c.primary with
  | none =>
      simp only [Client.SynthesizeT, hl]
      exact synthesizeFallbacksT_ctx c ctx ctx' text config h c.fallbacks
  | some p =>
      obtain ⟨kv, hmem, hsnd⟩ := lookupProv_mem hl
      have hp : p.Synthesize ctx text config = p.Synthesize ctx' text config := by
        rw [← hsnd]; exact h kv hmem
      cases he : p.Synthesize ctx' text config with
      | ok r => simp only [Client.SynthesizeT, hl, hp, he]
      | error e =>
          simp only [Client.SynthesizeT, hl, hp, he,
            synthesizeFallbacksT_ctx c ctx ctx' text config h c.fallbacks]

/-- The synthesize loop returns either some success or exactly
`ErrNoAvailableProvider`. -/
theorem synthesizeFallbacks_okOrNoAvail (c : Client) (ctx : Context) (text : String)
    (config : SynthesisConfig) (l : List String) :
    (∃ r, synthesizeFallbacks c ctx text config l = Except.ok r) ∨
      synthesizeFallbacks c ctx text config l
        = Except.error Err.noAvailableProvider := by
  induction l with
  | nil => exact Or.inr rfl
  | cons name rest ih =>
      cases hl : lookupProv c.providers name with
      | none => simp only [synthesizeFallbacks, hl]; exact ih
      | some p =>
          cases he : p.Synthesize ctx text config with
          | ok r => exact Or.inl ⟨r, by simp [synthesizeFallbacks, hl, he]⟩
          | error e => simp only [synthesizeFallbacks, hl, he]; exact ih

/-- The instrumented stream loop computes the same result as the verbatim
translation. -/
theorem synthStreamFallbacksT_fst (c : Client) (ctx : Context) (text : String)
    (config : SynthesisConfig) (l : List String) :
    (synthStreamFallbacksT c ctx text config l).1
      = synthStreamFallbacks c ctx text config l := by
  induction l with
  | nil => rfl
  | cons name rest ih =>
      cases hl : lookupProv c.providers name with
      | none => simp only [synthStreamFallbacksT, synthStreamFallbacks, hl]; exact ih
      | some p =>
          cases he : p.SynthesizeStream ctx text config with
          | ok st => simp [synthStreamFallbacksT, synthStreamFallbacks, hl, he]
          | error e =>
              simp only [synthStreamFallbacksT, synthStreamFallbacks, hl, he]
              exact ih

/-- The instrumented tts.Client.SynthesizeStream computes the same result
as the verbatim translation. -/
theorem SynthesizeStreamT_fst (c : Client) (ctx : Context) (text : String)
    (config : SynthesisConfig) :
    (c.SynthesizeStreamT ctx text config).1 = c.SynthesizeStream ctx text config := by
  cases hl : lookupProv c.providers c.primary with
  | none =>
      simp only [Client.SynthesizeStreamT, Client.SynthesizeStream, hl]
      exact synthStreamFallbacksT_fst c ctx text config c.fallbacks
  | some p =>
      cases he : p.SynthesizeStream ctx text config with
      | ok st => simp [Client.SynthesizeStreamT, Client.SynthesizeStream, hl, he]
      | error e =>
          simp only [Client.SynthesizeStreamT, Client.SynthesizeStream, hl, he]
          exact synthStreamFallbacksT_fst c ctx text config c.fallbacks

/-- When every resolving name in `l` fails to establish a stream, the
stream loop exhausts `l`, attempting exactly the resolving names in
order. -/
theorem synthStreamFallbacksT_allFail (c : Client) (ctx : Context) (text : String)
    (config : SynthesisConfig) (l : List String)
    (h : streamFailsOn c ctx text config l = true) :
    synthStreamFallbacksT c ctx text config l =
      (Except.error Err.noAvailableProvider, l.filter c.resolves) := by
  induction l with
  | nil => rfl
  | cons name rest ih =>
      simp only [streamFailsOn, List.all_cons, Bool.and_eq_true] at h
      obtain ⟨h1, h2⟩ := h
      have hrest := ih h2
      cases hl : lookupProv c.providers name with
      | none =>
          simp only [synthStreamFallbacksT, List.filter_cons, Client.resolves, hl,
            Option.isSome_none, Bool.false_eq_true, if_false]
          exact hrest
      | some p =>
          simp only [hl] at h1
          cases he : p.SynthesizeStream ctx text config with
          | ok st => rw [he] at h1; simp [isErr] at h1
          | error e =>
              simp only [synthStreamFallbacksT, List.filter_cons, Client.resolves,
                hl, he, Option.isSome_some, if_true, hrest]

end tts

namespace stt

/-- The registration loop never touches the primary name. -/
theorem addProviders_primary : ∀ (c : Client) (l : List Provider),
    (addProviders c l).primary = c.primary
  | _, [] => rfl
  | c, p :: rest => by
      simp only [addProviders]
      exact addProviders_primary _ rest

/-- The registration loop appends the given providers' names to the
fallback list, in order. -/
theorem addProviders_fallbacks : ∀ (c : Client) (l : List Provider),
    (addProviders c l).fallbacks = c.fallbacks ++ l.map (fun p => p.Name)
  | _, [] => by simp [addProviders]
  | c, p :: rest => by
      simp only [addProviders]
      rw [addProviders_fallbacks _ rest]
      simp

/-- The registration loop prepends the given providers as registry
entries, most recent first. -/
theorem addProviders_providers : ∀ (c : Client) (l : List Provider),
    (addProviders c l).providers
      = l.reverse.map (fun p => (p.Name, p)) ++ c.providers
  | _, [] => by simp [addProviders]
  | c, p :: rest => by
      simp only [addProviders]
      rw [addProviders_providers _ rest]
      simp [mapInsert]

/-- stt.NewClient sets the primary to the first argument's name. -/
theorem NewClient_primary (p₀ : Provider) (rest : List Provider) :
    (NewClient (p₀ :: rest)).primary = p₀.Name := by
  simp only [NewClient]
  rw [addProviders_primary]

/-- stt.NewClient sets the fallbacks to the remaining arguments' names in
argument order. -/
theorem NewClient_fallbacks (p₀ : Provider) (rest : List Provider) :
    (NewClient (p₀ :: rest)).fallbacks = rest.map (fun p => p.Name) := by
  simp only [NewClient]
  rw [addProviders_fallbacks]
  rfl

/-- Registry lookup on a freshly built stt client searches the arguments
from the last one backwards: the last registration of a name wins. -/
theorem NewClient_lookup (p₀ : Provider) (rest : List Provider) (nm : String) :
    lookupProv (NewClient (p₀ :: rest)).providers nm
      = ((p₀ :: rest).reverse).find? (fun p => p.Name == nm) := by
  simp only [NewClient]
  rw [addProviders_providers]
  have hm : rest.reverse.map (fun p => (p.Name, p)) ++ mapInsert [] p₀.Name p₀
      = ((p₀ :: rest).reverse).map (fun p => (p.Name, p)) := by
    simp [mapInsert]
  rw [hm]
  exact lookupProv_map_key (fun p => p.Name) ((p₀ :: rest).reverse) nm

/-- Every argument of stt.NewClient is registered under its name. -/
theorem NewClient_registered (p₀ : Provider) (rest : List Provider) :
    ∀ q ∈ p₀ :: rest,
      (lookupProv (NewClient (p₀ :: rest)).providers q.Name).isSome = true := by
  intro q hq
  rw [NewClient_lookup]
  rw [List.find?_isSome]
  exact ⟨q, List.mem_reverse.mpr hq, by simp⟩

end stt

namespace tts

/-- The registration loop never touches the primary name. -/
theorem addProviders_primary_tts : ∀ (c : Client) (l : List Provider),
    (addProviders c l).primary = c.primary
  | _, [] => rfl
  | c, p :: rest => by
      simp only [addProviders]
      exact addProviders_primary_tts _ rest

/-- The registration loop appends the given providers' names to the
fallback list, in order. -/
theorem addProviders_fallbacks_tts : ∀ (c : Client) (l : List Provider),
    (addProviders c l).fallbacks = c.fallbacks ++ l.map (fun p => p.Name)
  | _, [] => by simp [addProviders]
  | c, p :: rest => by
      simp only [addProviders]
      rw [addProviders_fallbacks_tts _ rest]
      simp

/-- The registration loop prepends the given providers as registry
entries, most recent first. -/
theorem addProviders_providers_tts : ∀ (c : Client) (l : List Provider),
    (addProviders c l).providers
      = l.reverse.map (fun p => (p.Name, p)) ++ c.providers
  | _, [] => by simp [addProviders]
  | c, p :: rest => by
      simp only [addProviders]
      rw [addProviders_providers_tts _ rest]
      simp [mapInsert]

/-- tts.NewClient sets the primary to the first argument's name. -/
theorem NewClient_primary_tts (p₀ : Provider) (rest : List Provider) :
    (NewClient (p₀ :: rest)).primary = p₀.Name := by
  simp only [NewClient]
  rw [addProviders_primary_tts]

/-- tts.NewClient sets the fallbacks to the remaining arguments' names in
argument order. -/
theorem NewClient_fallbacks_tts (p₀ : Provider) (rest : List Provider) :
    (NewClient (p₀ :: rest)).fallbacks = rest.map (fun p => p.Name) := by
  simp only [NewClient]
  rw [addProviders_fallbacks_tts]
  rfl

/-- Registry lookup on a freshly built tts client searches the arguments
from the last one backwards: the last registration of a name wins. -/
theorem NewClient_lookup_tts (p₀ : Provider) (rest : List Provider) (nm : String) :
    lookupProv (NewClient (p₀ :: rest)).providers nm
      = ((p₀ :: rest).reverse).find? (fun p => p.Name == nm) := by
  simp only [NewClient]
  rw [addProviders_providers_tts]
  have hm : rest.reverse.map (fun p => (p.Name, p)) ++ mapInsert [] p₀.Name p₀
      = ((p₀ :: rest).reverse).map (fun p => (p.Name, p)) := by
    simp [mapInsert]
  rw [hm]
  exact lookupProv_map_key (fun p => p.Name) ((p₀ :: rest).reverse) nm

/-- Every argument of tts.NewClient is registered under its name. -/
theorem NewClient_registered_tts (p₀ : Provider) (rest : List Provider) :
    ∀ q ∈ p₀ :: rest,
      (lookupProv (NewClient (p₀ :: rest)).providers q.Name).isSome = true := by
  intro q hq
  rw [NewClient_lookup_tts]
  rw [List.find?_isSome]
  exact ⟨q, List.mem_reverse.mpr hq, by simp⟩

end tts

/-! Claim theorems. -/

/-- C1: for every client whose primary name resolves in the registry and
whose primary provider's batch operation (Transcribe for STT, Synthesize
for TTS) succeeds on the given request, execute returns that provider's
result and the invocation trace is exactly the primary — no fallback
provider is invoked. -/
theorem claim_C1_primary_success :
    (∀ (c : stt.Client) (ctx : Context) (audio : Bytes)
        (config : stt.TranscriptionConfig) (p : stt.Provider)
        (r : stt.TranscriptionResult),
        lookupProv c.providers c.primary = some p →
        p.Transcribe ctx audio config = Except.ok r →
        c.TranscribeT ctx audio config = (Except.ok r, [c.primary])) ∧
    (∀ (c : tts.Client) (ctx : Context) (text : String)
        (config : tts.SynthesisConfig) (p : tts.Provider)
        (r : tts.SynthesisResult),
        lookupProv c.providers c.primary = some p →
        p.Synthesize ctx text config = Except.ok r →
        c.SynthesizeT ctx text config = (Except.ok r, [c.primary])) := by
  constructor
  · intro c ctx audio config p r hl he
    simp [stt.Client.TranscribeT, hl, he]
  · intro c ctx text config p r hl he
    simp [tts.Client.SynthesizeT, hl, he]

/-- C1 witness: concrete clients whose primary succeeds; the fallback is
never invoked. -/
theorem claim_C1_witness :
    c1c.TranscribeT ctx0 audio0 sttCfg0 = (Except.ok sttRes0, ["P"]) ∧
    c1tc.SynthesizeT ctx0 "hi" ttsCfg0 = (Except.ok ttsRes0, ["P"]) := by
  constructor
  · exact claim_C1_primary_success.1 c1c ctx0 audio0 sttCfg0 c1p sttRes0 rfl rfl
  · exact claim_C1_primary_success.2 c1tc ctx0 "hi" ttsCfg0 c1tp ttsRes0 rfl rfl

/-- C2: when every candidate in primary-then-fallbacks order that resolves
in the registry fails on the request, batch execute returns
ErrNoAvailableProvider, and the invocation trace is exactly the resolving
candidates, once each, in declared order. -/
theorem claim_C2_all_fail :
    (∀ (c : stt.Client) (ctx : Context) (audio : Bytes)
        (config : stt.TranscriptionConfig),
        stt.failsOn c ctx audio config (c.primary :: c.fallbacks) = true →
        c.Transcribe ctx audio config = Except.error stt.Err.noAvailableProvider ∧
        (c.TranscribeT ctx audio config).2
          = (c.primary :: c.fallbacks).filter c.resolves) ∧
    (∀ (c : tts.Client) (ctx : Context) (text : String)
        (config : tts.SynthesisConfig),
        tts.failsOn c ctx text config (c.primary :: c.fallbacks) = true →
        c.Synthesize ctx text config = Except.error tts.Err.noAvailableProvider ∧
        (c.SynthesizeT ctx text config).2
          = (c.primary :: c.fallbacks).filter c.resolves) := by
  constructor
  · intro c ctx audio config h
    have hT : c.TranscribeT ctx audio config
        = (Except.error stt.Err.noAvailableProvider,
            (c.primary :: c.fallbacks).filter c.resolves) := by
      simp only [stt.failsOn, List.all_cons, Bool.and_eq_true] at h
      obtain ⟨h1, h2⟩ := h
      have hrest := stt.transcribeFallbacksT_allFail c ctx audio config c.fallbacks h2
      cases hl : lookupProv c.providers c.primary with
      | none =>
          simp only [stt.Client.TranscribeT, List.filter_cons, stt.Client.resolves,
            hl, Option.isSome_none, Bool.false_eq_true, if_false]
          exact hrest
      | some p =>
          simp only [hl] at h1
          cases he : p.Transcribe ctx audio config with
          | ok r => rw [he] at h1; simp [isErr] at h1
          | error e =>
              simp only [stt.Client.TranscribeT, List.filter_cons,
                stt.Client.resolves, hl, he, Option.isSome_some, if_true, hrest]
    exact ⟨by rw [← stt.TranscribeT_fst, hT], by rw [hT]⟩
  · intro c ctx text config h
    have hT : c.SynthesizeT ctx text config
        = (Except.error tts.Err.noAvailableProvider,
            (c.primary :: c.fallbacks).filter c.resolves) := by
      simp only [tts.failsOn, List.all_cons, Bool.and_eq_true] at h
      obtain ⟨h1, h2⟩ := h
      have hrest := tts.synthesizeFallbacksT_allFail c ctx text config c.fallbacks h2
      cases hl : lookupProv c.providers c.primary with
      | none =>
          simp only [tts.Client.SynthesizeT, List.filter_cons, tts.Client.resolves,
            hl, Option.isSome_none, Bool.false_eq_true, if_false]
          exact hrest
      | some p =>
          simp only [hl] at h1
          cases he : p.Synthesize ctx text config with
          | ok r => rw [he] at h1; simp [isErr] at h1
          | error e =>
              simp only [tts.Client.SynthesizeT, List.filter_cons,
                tts.Client.resolves, hl, he, Option.isSome_some, if_true, hrest]
    exact ⟨by rw [← tts.SynthesizeT_fst, hT], by rw [hT]⟩

/-- C2 witness: concrete two-candidate clients, both candidates failing:
ErrNoAvailableProvider and trace A then B. -/
theorem claim_C2_witness :
    c2c.Transcribe ctx0 audio0 sttCfg0 = Except.error stt.Err.noAvailableProvider ∧
    (c2c.TranscribeT ctx0 audio0 sttCfg0).2 = ["A", "B"] ∧
    c2tc.Synthesize ctx0 "hi" ttsCfg0 = Except.error tts.Err.noAvailableProvider ∧
    (c2tc.SynthesizeT ctx0 "hi" ttsCfg0).2 = ["A", "B"] := by
  obtain ⟨hs1, hs2⟩ := claim_C2_all_fail.1 c2c ctx0 audio0 sttCfg0 rfl
  obtain ⟨ht1, ht2⟩ := claim_C2_all_fail.2 c2tc ctx0 "hi" ttsCfg0 rfl
  exact ⟨hs1, hs2.trans rfl, ht1, ht2.trans rfl⟩

/-- C3 counterexample: a tts client whose single candidate lacks the
StreamingProvider capability and fails stream establishment.
SynthesizeStream invokes that provider (trace is nonempty) and returns
ErrNoAvailableProvider, not a streaming-not-supported error — the claim's
universally quantified statement fails on the tts half. -/
theorem claim_C3_counterexample :
    c3c.providers.all (fun kv => kv.2.SynthesizeFromReader.isNone) = true ∧
    c3c.SynthesizeStreamT ctx0 "hi" ttsCfg0
      = (Except.error tts.Err.noAvailableProvider, ["q"]) :=
  ⟨rfl, rfl⟩

/-- C3 amended: for STT, TranscribeStream with no streaming-capable
resolving candidate fails with ErrStreamingNotSupported without invoking
any provider; for TTS there is no streaming capability gate —
SynthesizeStream is a base-interface method, every resolving candidate is
invoked, and exhaustion yields ErrNoAvailableProvider (the tts package
declares no streaming-not-supported error). -/
theorem claim_C3_amended :
    (∀ (c : stt.Client) (ctx : Context) (config : stt.TranscriptionConfig),
        stt.noStreamCapOn c (c.primary :: c.fallbacks) = true →
        c.TranscribeStreamT ctx config
          = (Except.error stt.Err.streamingNotSupported, [])) ∧
    (∀ (c : tts.Client) (ctx : Context) (text : String)
        (config : tts.SynthesisConfig),
        tts.streamFailsOn c ctx text config (c.primary :: c.fallbacks) = true →
        c.SynthesizeStreamT ctx text config
          = (Except.error tts.Err.noAvailableProvider,
              (c.primary :: c.fallbacks).filter c.resolves)) := by
  constructor
  · intro c ctx config h
    simp only [stt.noStreamCapOn, List.all_cons, Bool.and_eq_true] at h
    obtain ⟨h1, h2⟩ := h
    have hrest := stt.streamFallbacksT_noCap c ctx config c.fallbacks h2
    cases hl : lookupProv c.providers c.primary with
    | none => simp only [stt.Client.TranscribeStreamT, hl]; exact hrest
    | some p =>
        simp only [hl] at h1
        cases hts : p.TranscribeStream with
        | none => simp only [stt.Client.TranscribeStreamT, hl, hts]; exact hrest
        | some f => rw [hts] at h1; simp at h1
  · intro c ctx text config h
    simp only [tts.streamFailsOn, List.all_cons, Bool.and_eq_true] at h
    obtain ⟨h1, h2⟩ := h
    have hrest := tts.synthStreamFallbacksT_allFail c ctx text config c.fallbacks h2
    cases hl : lookupProv c.providers c.primary with
    | none =>
        simp only [tts.Client.SynthesizeStreamT, List.filter_cons,
          tts.Client.resolves, hl, Option.isSome_none, Bool.false_eq_true, if_false]
        exact hrest
    | some p =>
        simp only [hl] at h1
        cases he : p.SynthesizeStream ctx text config with
        | ok st => rw [he] at h1; simp [isErr] at h1
        | error e =>
            simp only [tts.Client.SynthesizeStreamT, List.filter_cons,
              tts.Client.resolves, hl, he, Option.isSome_some, if_true, hrest]

/-- C3 amended witness: the batch-only stt client yields
ErrStreamingNotSupported with an empty trace; the tts client invokes its
only candidate and yields ErrNoAvailableProvider. -/
theorem claim_C3_amended_witness :
    c3sc.TranscribeStreamT ctx0 sttCfg0
      = (Except.error stt.Err.streamingNotSupported, []) ∧
    c3c.SynthesizeStreamT ctx0 "hi" ttsCfg0
      = (Except.error tts.Err.noAvailableProvider, ["q"]) := by
  constructor
  · exact claim_C3_amended.1 c3sc ctx0 sttCfg0 rfl
  · exact (claim_C3_amended.2 c3c ctx0 "hi" ttsCfg0 rfl).trans rfl

/-- C4 counterexample: stt client whose primary "A" is streaming-capable
but fails establishment while fallback "B" is streaming-capable and would
succeed. TranscribeStream returns A's establishment error directly with
trace exactly ["A"]: the next streaming-capable candidate is not
attempted, contradicting the claim for the STT half. -/
theorem claim_C4_counterexample :
    c4c.TranscribeStreamT ctx0 sttCfg0
      = (Except.error (stt.Err.other "estab failed"), ["A"]) ∧
    c4b.TranscribeStream.isSome = true :=
  ⟨rfl, rfl⟩

/-- C4 amended: TTS SynthesizeStream applies fallback at session
establishment (a failing primary establishment advances to the fallback
loop); STT TranscribeStream does not — it performs at most one
establishment attempt ever, and a streaming-capable resolving primary's
establishment result (error included) is returned to the caller
directly. -/
theorem claim_C4_amended :
    (∀ (c : tts.Client) (ctx : Context) (text : String)
        (config : tts.SynthesisConfig) (p : tts.Provider),
        lookupProv c.providers c.primary = some p →
        isErr (p.SynthesizeStream ctx text config) = true →
        c.SynthesizeStreamT ctx text config
          = ((tts.synthStreamFallbacksT c ctx text config c.fallbacks).1,
              c.primary
                :: (tts.synthStreamFallbacksT c ctx text config c.fallbacks).2)) ∧
    (∀ (c : stt.Client) (ctx : Context) (config : stt.TranscriptionConfig),
        (c.TranscribeStreamT ctx config).2.length ≤ 1) ∧
    (∀ (c : stt.Client) (ctx : Context) (config : stt.TranscriptionConfig)
        (p : stt.Provider)
        (f : Context → stt.TranscriptionConfig →
          Except stt.Err (stt.WriteCloser × List stt.StreamEvent)),
        lookupProv c.providers c.primary = some p →
        p.TranscribeStream = some f →
        c.TranscribeStreamT ctx config = (f ctx config, [c.primary])) := by
  refine ⟨?_, ?_, ?_⟩
  · intro c ctx text config p hl he
    cases hs : p.SynthesizeStream ctx text config with
    | ok st => rw [hs] at he; simp [isErr] at he
    | error e => simp [tts.Client.SynthesizeStreamT, hl, hs]
  · intro c ctx config
    cases hl : lookupProv c.providers c.primary with
    | none =>
        simp only [stt.Client.TranscribeStreamT, hl]
        exact stt.streamFallbacksT_len c ctx config c.fallbacks
    | some p =>
        cases hts : p.TranscribeStream with
        | none =>
            simp only [stt.Client.TranscribeStreamT, hl, hts]
            exact stt.streamFallbacksT_len c ctx config c.fallbacks
        | some f => simp [stt.Client.TranscribeStreamT, hl, hts]
  · intro c ctx config p f hl hts
    simp [stt.Client.TranscribeStreamT, hl, hts]

/-- C4 amended witness: the tts client retries establishment on the
fallback and returns B's stream after A's failure; the stt client
attempts exactly one establishment and surfaces A's error. -/
theorem claim_C4_amended_witness :
    c4tc.SynthesizeStreamT ctx0 "hi" ttsCfg0
      = (Except.ok [{ Audio := [5], IsFinal := true, Error := none }], ["A", "B"]) ∧
    (c4c.TranscribeStreamT ctx0 sttCfg0).2.length ≤ 1 ∧
    c4c.TranscribeStreamT ctx0 sttCfg0
      = (Except.error (stt.Err.other "estab failed"), ["A"]) := by
  refine ⟨?_, claim_C4_amended.2.1 c4c ctx0 sttCfg0, ?_⟩
  · exact (claim_C4_amended.1 c4tc ctx0 "hi" ttsCfg0 c4tp rfl rfl).trans rfl
  · exact claim_C4_amended.2.2 c4c ctx0 sttCfg0 c4a
      (fun _ _ => Except.error (stt.Err.other "estab failed")) rfl rfl

/-- C5 counterexample: with an already-cancelled caller context, the stt
client still attempts the fallback after the primary's failure — the
trace is ["A", "B"] and the call even returns B's result. The fallback
loop contains no cancellation check, contradicting the claim. -/
theorem claim_C5_counterexample :
    ctxCancelled.err = some CtxError.canceled ∧
    c5c.TranscribeT ctxCancelled audio0 sttCfg0 = (Except.ok sttRes0, ["A", "B"]) :=
  ⟨rfl, rfl⟩

/-- C5 amended: the batch fallback loops perform no cancellation check:
the result and the invocation trace depend on the caller's context only
through the providers' own behaviour — if every registered provider
answers alike on two contexts, the whole call does too, cancelled or
not. -/
theorem claim_C5_amended :
    (∀ (c : stt.Client) (ctx ctx' : Context) (audio : Bytes)
        (config : stt.TranscriptionConfig),
        (∀ kv ∈ c.providers,
          kv.2.Transcribe ctx audio config = kv.2.Transcribe ctx' audio config) →
        c.TranscribeT ctx audio config = c.TranscribeT ctx' audio config) ∧
    (∀ (c : tts.Client) (ctx ctx' : Context) (text : String)
        (config : tts.SynthesisConfig),
        (∀ kv ∈ c.providers,
          kv.2.Synthesize ctx text config = kv.2.Synthesize ctx' text config) →
        c.SynthesizeT ctx text config = c.SynthesizeT ctx' text config) :=
  ⟨fun c ctx ctx' audio config h => stt.TranscribeT_ctx c ctx ctx' audio config h,
   fun c ctx ctx' text config h => tts.SynthesizeT_ctx c ctx ctx' text config h⟩

/-- C5 amended witness: a cancelled context gives exactly the same
outcome as a live one on concrete clients of context-oblivious
providers. -/
theorem claim_C5_amended_witness :
    c5c.TranscribeT ctxCancelled audio0 sttCfg0
      = c5c.TranscribeT ctx0 audio0 sttCfg0 ∧
    c5tc.SynthesizeT ctxCancelled "hi" ttsCfg0
      = c5tc.SynthesizeT ctx0 "hi" ttsCfg0 := by
  constructor
  · refine claim_C5_amended.1 c5c ctxCancelled ctx0 audio0 sttCfg0 ?_
    intro kv hkv
    simp only [c5c, List.mem_cons, List.not_mem_nil, or_false] at hkv
    rcases hkv with rfl | rfl <;> rfl
  · refine claim_C5_amended.2 c5tc ctxCancelled ctx0 "hi" ttsCfg0 ?_
    intro kv hkv
    simp only [c5tc, List.mem_cons, List.not_mem_nil, or_false] at hkv
    rcases hkv with rfl
    rfl

/-- C6: fallback names that do not resolve in the registry are skipped
without producing an error: with fallbacks ["ghost", "real"] where
"ghost" was never registered and "real"'s provider succeeds (and the
primary, if it resolves, fails), execute returns "real"'s result. -/
theorem claim_C6_ghost_skipped :
    (∀ (c : stt.Client) (ctx : Context) (audio : Bytes)
        (config : stt.TranscriptionConfig) (pr : stt.Provider)
        (r : stt.TranscriptionResult),
        c.fallbacks = ["ghost", "real"] →
        lookupProv c.providers "ghost" = none →
        lookupProv c.providers "real" = some pr →
        pr.Transcribe ctx audio config = Except.ok r →
        stt.failsOn c ctx audio config [c.primary] = true →
        c.Transcribe ctx audio config = Except.ok r) ∧
    (∀ (c : tts.Client) (ctx : Context) (text : String)
        (config : tts.SynthesisConfig) (pr : tts.Provider)
        (r : tts.SynthesisResult),
        c.fallbacks = ["ghost", "real"] →
        lookupProv c.providers "ghost" = none →
        lookupProv c.providers "real" = some pr →
        pr.Synthesize ctx text config = Except.ok r →
        tts.failsOn c ctx text config [c.primary] = true →
        c.Synthesize ctx text config = Except.ok r) := by
  constructor
  · intro c ctx audio config pr r hf hg hr hok hp
    simp only [stt.failsOn, List.all_cons, List.all_nil, Bool.and_true] at hp
    have hloop : stt.transcribeFallbacks c ctx audio config c.fallbacks
        = Except.ok r := by
      rw [hf]
      simp only [stt.transcribeFallbacks, hg, hr, hok]
    cases hl : lookupProv c.providers c.primary with
    | none => simp only [stt.Client.Transcribe, hl]; exact hloop
    | some p =>
        simp only [hl] at hp
        cases he : p.Transcribe ctx audio config with
        | ok r2 => rw [he] at hp; simp [isErr] at hp
        | error e => simp only [stt.Client.Transcribe, hl, he]; exact hloop
  · intro c ctx text config pr r hf hg hr hok hp
    simp only [tts.failsOn, List.all_cons, List.all_nil, Bool.and_true] at hp
    have hloop : tts.synthesizeFallbacks c ctx text config c.fallbacks
        = Except.ok r := by
      rw [hf]
      simp only [tts.synthesizeFallbacks, hg, hr, hok]
    cases hl : lookupProv c.providers c.primary with
    | none => simp only [tts.Client.Synthesize, hl]; exact hloop
    | some p =>
        simp only [hl] at hp
        cases he : p.Synthesize ctx text config with
        | ok r2 => rw [he] at hp; simp [isErr] at hp
        | error e => simp only [tts.Client.Synthesize, hl, he]; exact hloop

/-- C6 witness: concrete clients with fallbacks ["ghost", "real"] where
"ghost" never resolves; execute returns "real"'s result. -/
theorem claim_C6_witness :
    c6c.Transcribe ctx0 audio0 sttCfg0 = Except.ok sttRes0 ∧
    c6tc.Synthesize ctx0 "hi" ttsCfg0 = Except.ok ttsRes0 := by
  constructor
  · exact claim_C6_ghost_skipped.1 c6c ctx0 audio0 sttCfg0 c6real sttRes0
      rfl rfl rfl rfl rfl
  · exact claim_C6_ghost_skipped.2 c6tc ctx0 "hi" ttsCfg0 c6treal ttsRes0
      rfl rfl rfl rfl rfl

/-- C7: for every client, request and arbitrary provider behaviours, the
batch execute operation returns either some provider's successful result
or exactly ErrNoAvailableProvider; provider-specific error values never
leak as the call's failure result. -/
theorem claim_C7_no_error_leak :
    (∀ (c : stt.Client) (ctx : Context) (audio : Bytes)
        (config : stt.TranscriptionConfig),
        (∃ r, c.Transcribe ctx audio config = Except.ok r) ∨
          c.Transcribe ctx audio config
            = Except.error stt.Err.noAvailableProvider) ∧
    (∀ (c : tts.Client) (ctx : Context) (text : String)
        (config : tts.SynthesisConfig),
        (∃ r, c.Synthesize ctx text config = Except.ok r) ∨
          c.Synthesize ctx text config
            = Except.error tts.Err.noAvailableProvider) := by
  constructor
  · intro c ctx audio config
    cases hl : lookupProv c.providers c.primary with
    | none =>
        simp only [stt.Client.Transcribe, hl]
        exact stt.transcribeFallbacks_okOrNoAvail c ctx audio config c.fallbacks
    | some p =>
        cases he : p.Transcribe ctx audio config with
        | ok r => exact Or.inl ⟨r, by simp [stt.Client.Transcribe, hl, he]⟩
        | error e =>
            simp only [stt.Client.Transcribe, hl, he]
            exact stt.transcribeFallbacks_okOrNoAvail c ctx audio config c.fallbacks
  · intro c ctx text config
    cases hl : lookupProv c.providers c.primary with
    | none =>
        simp only [tts.Client.Synthesize, hl]
        exact tts.synthesizeFallbacks_okOrNoAvail c ctx text config c.fallbacks
    | some p =>
        cases he : p.Synthesize ctx text config with
        | ok r => exact Or.inl ⟨r, by simp [tts.Client.Synthesize, hl, he]⟩
        | error e =>
            simp only [tts.Client.Synthesize, hl, he]
            exact tts.synthesizeFallbacks_okOrNoAvail c ctx text config c.fallbacks

/-- C8 counterexample: SetPrimary performs no validation — after setting
the primary of a freshly built one-provider client to the unregistered
name "ghost", the non-empty primary no longer names a registered
provider, so the claimed invariant is not preserved by every client
operation. -/
theorem claim_C8_counterexample :
    ¬ stt.primaryRegistered ((stt.NewClient [c8p]).SetPrimary "ghost") := by
  intro h
  have h2 := h (by decide)
  exact absurd h2 (by decide)

/-- C8 amended: NewClient always establishes the invariant (a non-empty
primary names a registered provider) and SetFallbacks preserves it, but
SetPrimary performs no registry check and can break it. -/
theorem claim_C8_amended :
    ((∀ ps : List stt.Provider, stt.primaryRegistered (stt.NewClient ps)) ∧
      ∀ (c : stt.Client) (names : List String),
        stt.primaryRegistered c → stt.primaryRegistered (c.SetFallbacks names)) ∧
    ((∀ ps : List tts.Provider, tts.primaryRegistered (tts.NewClient ps)) ∧
      ∀ (c : tts.Client) (names : List String),
        tts.primaryRegistered c → tts.primaryRegistered (c.SetFallbacks names)) := by
  refine ⟨⟨?_, ?_⟩, ?_, ?_⟩
  · intro ps
    cases ps with
    | nil => intro h; exact absurd rfl h
    | cons p₀ rest =>
        intro _
        rw [stt.NewClient_primary p₀ rest]
        exact stt.NewClient_registered p₀ rest p₀ (List.mem_cons_self p₀ rest)
  · intro c names h
    exact h
  · intro ps
    cases ps with
    | nil => intro h; exact absurd rfl h
    | cons p₀ rest =>
        intro _
        rw [tts.NewClient_primary_tts p₀ rest]
        exact tts.NewClient_registered_tts p₀ rest p₀ (List.mem_cons_self p₀ rest)
  · intro c names h
    exact h

/-- C8 amended witness: the invariant holds after NewClient followed by
SetFallbacks on concrete clients. -/
theorem claim_C8_amended_witness :
    stt.primaryRegistered ((stt.NewClient [c8p]).SetFallbacks ["x"]) ∧
    tts.primaryRegistered ((tts.NewClient [c8tp]).SetFallbacks ["x"]) :=
  ⟨claim_C8_amended.1.2 (stt.NewClient [c8p]) ["x"] (claim_C8_amended.1.1 [c8p]),
   claim_C8_amended.2.2 (tts.NewClient [c8tp]) ["x"] (claim_C8_amended.2.1 [c8tp])⟩

/-- C9: NewClient with at least one argument sets the primary to the
first argument's self-reported name, the fallbacks to the remaining
arguments' names in argument order, registers every argument under its
name, and on a name collision the last registration wins (registry lookup
searches the arguments from the last backwards). -/
theorem claim_C9_newclient :
    (∀ (p₀ : stt.Provider) (rest : List stt.Provider),
        (stt.NewClient (p₀ :: rest)).primary = p₀.Name ∧
        (stt.NewClient (p₀ :: rest)).fallbacks = rest.map (fun p => p.Name) ∧
        (∀ nm, lookupProv (stt.NewClient (p₀ :: rest)).providers nm
          = ((p₀ :: rest).reverse).find? (fun p => p.Name == nm)) ∧
        ∀ q ∈ p₀ :: rest,
          (lookupProv (stt.NewClient (p₀ :: rest)).providers q.Name).isSome
            = true) ∧
    (∀ (p₀ : tts.Provider) (rest : List tts.Provider),
        (tts.NewClient (p₀ :: rest)).primary = p₀.Name ∧
        (tts.NewClient (p₀ :: rest)).fallbacks = rest.map (fun p => p.Name) ∧
        (∀ nm, lookupProv (tts.NewClient (p₀ :: rest)).providers nm
          = ((p₀ :: rest).reverse).find? (fun p => p.Name == nm)) ∧
        ∀ q ∈ p₀ :: rest,
          (lookupProv (tts.NewClient (p₀ :: rest)).providers q.Name).isSome
            = true) := by
  constructor
  · intro p₀ rest
    exact ⟨stt.NewClient_primary p₀ rest, stt.NewClient_fallbacks p₀ rest,
      fun nm => stt.NewClient_lookup p₀ rest nm, stt.NewClient_registered p₀ rest⟩
  · intro p₀ rest
    exact ⟨tts.NewClient_primary_tts p₀ rest, tts.NewClient_fallbacks_tts p₀ rest,
      fun nm => tts.NewClient_lookup_tts p₀ rest nm, tts.NewClient_registered_tts p₀ rest⟩

/-- C9 witness: two providers sharing the name "dup" — the second
registration wins the registry entry, the first one's name is the
primary, the second one's name the sole fallback, and the duplicate name
resolves. -/
theorem claim_C9_witness :
    lookupProv (stt.NewClient [c9d1, c9d2]).providers "dup" = some c9d2 ∧
    (stt.NewClient [c9d1, c9d2]).primary = "dup" ∧
    (stt.NewClient [c9d1, c9d2]).fallbacks = ["dup"] ∧
    (lookupProv (stt.NewClient [c9d1, c9d2]).providers c9d2.Name).isSome = true ∧
    lookupProv (tts.NewClient [c9e1, c9e2]).providers "dup" = some c9e2 := by
  obtain ⟨hp, hf, hl, hreg⟩ := claim_C9_newclient.1 c9d1 [c9d2]
  obtain ⟨hp2, hf2, hl2, hreg2⟩ := claim_C9_newclient.2 c9e1 [c9e2]
  exact ⟨(hl "dup").trans rfl, hp.trans rfl, hf.trans rfl,
    hreg c9d2 (by simp), (hl2 "dup").trans rfl⟩

/-- C10 counterexample: the primary "A" fails and also appears in the
fallbacks, but the intervening fallback "B" succeeds, so the execute call
invokes "A" only once — the claim's universally quantified statement
fails. -/
theorem claim_C10_counterexample :
    c10c.fallbacks = ["B", "A"] ∧
    isErr (c10a.Transcribe ctx0 audio0 sttCfg0) = true ∧
    c10c.TranscribeT ctx0 audio0 sttCfg0 = (Except.ok sttRes0, ["A", "B"]) ∧
    ((c10c.TranscribeT ctx0 audio0 sttCfg0).2).count "A" = 1 :=
  ⟨rfl, rfl, rfl, rfl⟩

/-- C10 amended: candidate names are not deduplicated — if the primary
resolves and fails, appears again in the fallbacks, and every fallback
before that duplicate either fails or does not resolve, then a single
execute call invokes that provider at least twice (once as primary, once
as fallback). -/
theorem claim_C10_amended :
    (∀ (c : stt.Client) (ctx : Context) (audio : Bytes)
        (config : stt.TranscriptionConfig) (p : stt.Provider)
        (pre post : List String),
        c.fallbacks = pre ++ c.primary :: post →
        lookupProv c.providers c.primary = some p →
        isErr (p.Transcribe ctx audio config) = true →
        stt.failsOn c ctx audio config pre = true →
        2 ≤ ((c.TranscribeT ctx audio config).2).count c.primary) ∧
    (∀ (c : tts.Client) (ctx : Context) (text : String)
        (config : tts.SynthesisConfig) (p : tts.Provider)
        (pre post : List String),
        c.fallbacks = pre ++ c.primary :: post →
        lookupProv c.providers c.primary = some p →
        isErr (p.Synthesize ctx text config) = true →
        tts.failsOn c ctx text config pre = true →
        2 ≤ ((c.SynthesizeT ctx text config).2).count c.primary) := by
  constructor
  · intro c ctx audio config p pre post hf hl hperr hpre
    cases he : p.Transcribe ctx audio config with
    | ok r => rw [he] at hperr; simp [isErr] at hperr
    | error e =>
        have htr : (c.TranscribeT ctx audio config).2
            = c.primary :: (pre.filter c.resolves
                ++ c.primary
                  :: (stt.transcribeFallbacksT c ctx audio config post).2) := by
          simp only [stt.Client.TranscribeT, hl, he]
          rw [hf]
          simp only
            [stt.transcribeFallbacksT_append c ctx audio config pre
              (c.primary :: post) hpre,
             stt.transcribeFallbacksT, hl, he]
        rw [htr, List.count_cons_self, List.count_append, List.count_cons_self]
        omega
  · intro c ctx text config p pre post hf hl hperr hpre
    cases he : p.Synthesize ctx text config with
    | ok r => rw [he] at hperr; simp [isErr] at hperr
    | error e =>
        have htr : (c.SynthesizeT ctx text config).2
            = c.primary :: (pre.filter c.resolves
                ++ c.primary
                  :: (tts.synthesizeFallbacksT c ctx text config post).2) := by
          simp only [tts.Client.SynthesizeT, hl, he]
          rw [hf]
          simp only
            [tts.synthesizeFallbacksT_append c ctx text config pre
              (c.primary :: post) hpre,
             tts.synthesizeFallbacksT, hl, he]
        rw [htr, List.count_cons_self, List.count_append, List.count_cons_self]
        omega

/-- C10 amended witness: primary "A" fails, fallback order ["B", "A"]
with "B" failing too — "A" is invoked twice in one call. -/
theorem claim_C10_amended_witness :
    2 ≤ ((c10w.TranscribeT ctx0 audio0 sttCfg0).2).count "A" ∧
    2 ≤ ((c10tw.SynthesizeT ctx0 "hi" ttsCfg0).2).count "A" := by
  constructor
  · exact claim_C10_amended.1 c10w ctx0 audio0 sttCfg0 c10a ["B"] [] rfl rfl rfl rfl
  · exact claim_C10_amended.2 c10tw ctx0 "hi" ttsCfg0 c10ta ["B"] [] rfl rfl rfl rfl
